import Mathlib

/-!
# Verification of `onlinejudge/_implementation/format_utils.py`

A shallow embedding of the printf-style format mini-language
(`percentsplit`, `percentformat`, `percentparse`), the path matcher
(`match_with_format`), the backup/hidden-file filter
(`is_backup_or_hidden_file`, `drop_backup_or_hidden_files`), and the
test-case relationship builder (`construct_relationship_of_files`).

Modelling conventions:
* Python `dict`s are association lists (`List (key × value)`); assignment
  replaces an existing key in place and appends a fresh key at the end,
  matching insertion-ordered `dict` semantics.
* Filesystem paths are represented by their fully resolved string form, so
  `Path.resolve()` is the identity in the model.
* Regular-expression fragments that the source keeps as strings (values of
  the placeholder tables, group syntax `(?P<k>v)`, back-references
  `(?P=k)`) are embedded as an explicit `Regex` AST; `re.escape` on literal
  text corresponds to embedding each literal character as `Regex.lit`.
  The matcher reproduces the engine's leftmost backtracking order:
  alternation prefers its left branch and repetition is greedy.
* `sys.exit(1)` after a logged error, a raised `KeyError`, and a failed
  `assert` are modelled as `Except`/`Option` failure values.
-/

/-- Lookup in an insertion-ordered association list (Python `d[k]`),
returning `none` where Python raises `KeyError` or reports `k not in d`. -/
def alistLookup {α β : Type} [DecidableEq α] (k : α) : List (α × β) → Option β
  | [] => none
  | (k', v) :: rest => if k' = k then some v else alistLookup k rest

/-- Assignment `d[k] = v` on an insertion-ordered association list:
replace in place when the key exists, append at the end otherwise. -/
def alistInsert {α β : Type} [DecidableEq α] (k : α) (v : β) : List (α × β) → List (α × β)
  | [] => [(k, v)]
  | (k', v') :: rest => if k' = k then (k, v) :: rest else (k', v') :: alistInsert k v rest

/-- A placeholder table in render mode: `Dict[str, str]` keyed by the
single placeholder character. -/
abbrev Dict := List (Char × String)

/-- Model of `percentsplit` (source lines 14-16), on the character list of the input.
`re.finditer` with the pattern alternation of a non-percent character and a
percent followed by any non-newline character scans left to right; at a
position where neither branch matches (a `%` followed by a newline or by
nothing) the scan advances one character without yielding a token, so a
trailing lone `%` yields no token. -/
def percentsplitList : List Char → List (List Char)
  | [] => []
  | [c] => if c = '%' then [] else [[c]]
  | c :: c2 :: rest2 =>
    if c = '%' then
      if c2 = '\n' then percentsplitList (c2 :: rest2)
      else ['%', c2] :: percentsplitList rest2
    else [c] :: percentsplitList (c2 :: rest2)

/-- Model of `percentsplit` on strings, yielding each token `m.group(0)` as a string. -/
def percentsplit (s : String) : List String :=
  (percentsplitList s.data).map (fun cs => String.mk cs)

/-- The assertion at source line 26: the `%` key, if present, must map to
`%` itself. -/
def tableAssertOK (table : Dict) : Bool :=
  match alistLookup '%' table with
  | none => true
  | some v => v == "%"

/-- The accumulation loop of `percentformat` (source lines 28-33): a `%c`
token contributes `table[c]` (`none` models the `KeyError` when the entry
is missing, and the `IndexError` on a token of length one starting with
`%`, which the tokenizer never produces); a literal token contributes
itself. -/
def formatTokens : List (List Char) → Dict → Option (List Char)
  | [], _ => some []
  | tok :: rest, table =>
    if tok.head? = some '%' then
      match tok.get? 1 with
      | none => none
      | some c =>
        match alistLookup c table with
        | none => none
        | some v => (formatTokens rest table).map (fun cs => v.data ++ cs)
    else (formatTokens rest table).map (fun cs => tok ++ cs)

/-- Model of `percentformat` (source lines 19-34).  The call mutates the caller's
table by `table['%'] = '%'`, so the model returns the produced string
together with the table as it is left after the call; `none` models the
`AssertionError` on a bad `%` entry and the `KeyError` on a missing
placeholder. -/
def percentformat (s : String) (table : Dict) : Option (String × Dict) :=
  if tableAssertOK table then
    match formatTokens (percentsplitList s.data) (alistInsert '%' "%" table) with
    | none => none
    | some cs => some (String.mk cs, alistInsert '%' "%" table)
  else none

/-- The named-capture state of a match in progress: `groupdict()` restricted
to the groups that have participated, keyed by group name. -/
abbrev Groups := List (String × String)

/-- The fragment of Python regular expressions that the source emits:
literal (escaped) characters, the dot, character classes, alternation,
concatenation, greedy repetition, named capture groups `(?P<name>...)` and
back-references `(?P=name)`. -/
inductive Regex where
  | eps : Regex
  | lit : Char → Regex
  | anyc : Regex
  | cls : List Char → Regex
  | alt : Regex → Regex → Regex
  | cat : Regex → Regex → Regex
  | star : Regex → Regex
  | group : String → Regex → Regex
  | backref : String → Regex
deriving DecidableEq

/-- Structural size of a pattern, used to bound the matcher's recursion
depth. -/
def regexSize : Regex → Nat
  | .eps => 1
  | .lit _ => 1
  | .anyc => 1
  | .cls _ => 1
  | .backref _ => 1
  | .alt a b => regexSize a + regexSize b + 1
  | .cat a b => regexSize a + regexSize b + 1
  | .star a => regexSize a + 1
  | .group _ a => regexSize a + 1

/-- Backtracking matcher.  `mtch fuel r s g` returns every way the pattern
`r` can consume a prefix of `s` starting from capture state `g`, as pairs
of the remaining suffix and the updated capture state, in the engine's
backtracking priority order: alternation yields its left branch first and
repetition is greedy (more iterations first; an iteration that consumes
nothing is cut off, as the engine cuts repeated empty matches).  The dot
matches any character except a newline.  A back-reference to a group that
has not captured fails.  The fuel only bounds recursion depth; `matchFuel`
below always provides enough for the search to run to completion. -/
def mtch : Nat → Regex → List Char → Groups → List (List Char × Groups)
  | 0, _, _, _ => []
  | Nat.succ n, r, s, g =>
    match r with
    | .eps => [(s, g)]
    | .lit c =>
      match s with
      | [] => []
      | c' :: rest => if c' = c then [(rest, g)] else []
    | .anyc =>
      match s with
      | [] => []
      | c' :: rest => if c' = '\n' then [] else [(rest, g)]
    | .cls cs =>
      match s with
      | [] => []
      | c' :: rest => if cs.contains c' then [(rest, g)] else []
    | .alt r1 r2 => mtch n r1 s g ++ mtch n r2 s g
    | .cat r1 r2 => (mtch n r1 s g).flatMap (fun p => mtch n r2 p.1 p.2)
    | .star r0 =>
      ((mtch n r0 s g).filter (fun p => decide (p.1.length < s.length))).flatMap
        (fun p => mtch n (.star r0) p.1 p.2) ++ [(s, g)]
    | .group nm r0 =>
      (mtch n r0 s g).map
        (fun p => (p.1, alistInsert nm (String.mk (s.take (s.length - p.1.length))) p.2))
    | .backref nm =>
      match alistLookup nm g with
      | none => []
      | some v => if v.data.isPrefixOf s then [(s.drop v.data.length, g)] else []

/-- Fuel that dominates the matcher's recursion depth on pattern `r` and
input `s`. -/
def matchFuel (r : Regex) (s : String) : Nat :=
  regexSize r * (s.data.length + 2)

/-- Model of `re.match(pattern, s)`: the first match in backtracking order, anchored
at the start of `s` only — the remaining suffix is returned, not required
to be empty. -/
def reMatch (r : Regex) (s : String) : Option (List Char × Groups) :=
  (mtch (matchFuel r s) r s.data []).head?

/-- The `groupdict()` of `re.match(pattern, s)`. -/
def reMatchGroups (r : Regex) (s : String) : Option Groups :=
  (reMatch r s).map (fun p => p.2)

/-- The unconsumed suffix left by `re.match(pattern, s)`. -/
def reMatchRemainder (r : Regex) (s : String) : Option (List Char) :=
  (reMatch r s).map (fun p => p.1)

/-- Matching against a pattern that ends in the `$` anchor: the first
result in backtracking order whose remainder is empty or a single trailing
newline (the two positions at which `$` matches). -/
def reDollarMatchGroups (r : Regex) (s : String) : Option Groups :=
  (((mtch (matchFuel r s) r s.data []).filter
      (fun p => p.1.isEmpty || p.1 == ['\n'])).head?).map (fun p => p.2)

/-- A placeholder table in match mode: the regular-expression fragment for
each placeholder character, embedded as an AST. -/
abbrev RDict := List (Char × Regex)

/-- The pattern-building loop of `percentparse` (source lines 46-58), over
the token list of the format string.  The first occurrence of a
placeholder character `c` contributes the named capture group
`(?P<c>table[c])` and records `c` as seen; a later occurrence contributes
the back-reference `(?P=c)`; a literal character, kept literal by
`re.escape`, contributes itself.  `none` models the `KeyError` raised when
a placeholder character has no table entry. -/
def parseTokens : List (List Char) → RDict → List Char → Option Regex
  | [], _, _ => some .eps
  | tok :: rest, table, used =>
    match tok with
    | '%' :: c :: _ =>
      if used.contains c then
        (parseTokens rest table used).map (fun r => .cat (.backref c.toString) r)
      else
        match alistLookup c table with
        | none => none
        | some frag =>
          (parseTokens rest table (used ++ [c])).map
            (fun r => .cat (.group c.toString frag) r)
    | _ => (parseTokens rest table used).map (fun r => .cat (tok.foldr (fun c acc => Regex.cat (.lit c) acc) .eps) r)

/-- Model of `percentparse` (source lines 37-62).  The outer `none` models the
`KeyError` on a placeholder without a table entry; `some none` is the
source's `None` result when `re.match` finds no match; `some (some g)`
returns `m.groupdict()`. -/
def percentparse (s format : String) (table : RDict) : Option (Option Groups) :=
  (parseTokens (percentsplitList format.data) table []).map
    (fun r => reMatchGroups r s)

/-- The unconsumed suffix that the successful `re.match` inside
`percentparse` leaves behind, exposing that the pattern is anchored at the
start of the input only. -/
def percentparseRemainder (s format : String) (table : RDict) : Option (Option (List Char)) :=
  (parseTokens (percentsplitList format.data) table []).map
    (fun r => reMatchRemainder r s)

/-- A string embedded as the pattern matching exactly its characters
(`re.escape` of literal text). -/
def strLits (t : String) : Regex :=
  t.data.foldr (fun c acc => Regex.cat (.lit c) acc) .eps

/-- The table built in `match_with_format` (source lines 77-79), extended
with the `%` entry that `percentformat` adds: `s` maps to
`(?P<name>.+)`, `e` maps to `(?P<ext>in|out)`, `%` maps to a literal
percent, and every other placeholder raises `KeyError` (`none`). -/
def matchTable (c : Char) : Option Regex :=
  if c = 's' then some (.group "name" (.cat .anyc (.star .anyc)))
  else if c = 'e' then
    some (.group "ext" (.alt (.cat (.lit 'i') (.cat (.lit 'n') .eps))
                             (.cat (.lit 'o') (.cat (.lit 'u') (.cat (.lit 't') .eps)))))
  else if c = '%' then some (.lit '%')
  else none

/-- The `percentformat` call inside `match_with_format` (source line 80):
plain substitution of each placeholder token by its table fragment, with
no seen-set and no back-references, over the tokens of the escaped format
string. -/
def substTokens (table : Char → Option Regex) : List (List Char) → Option Regex
  | [] => some .eps
  | tok :: rest =>
    match tok with
    | '%' :: c :: _ =>
      match table c with
      | none => none
      | some frag => (substTokens table rest).map (fun r => .cat frag r)
    | _ => (substTokens table rest).map (fun r => .cat (tok.foldr (fun c acc => Regex.cat (.lit c) acc) .eps) r)

/-- Model of `match_with_format` (source lines 76-81).  The pattern is the escaped
resolved directory, a literal slash, the substituted format, between `^`
and `$`; it is matched against the resolved path.  Paths are modelled by
their resolved strings.  The outer `none` models the `KeyError` on a
placeholder outside the table; `some none` is a failed match. -/
def match_with_format (directory format path : String) : Option (Option Groups) :=
  (substTokens matchTable (percentsplitList format.data)).map
    (fun r => reDollarMatchGroups (.cat (strLits directory) (.cat (.lit '/') r)) path)

/-- Model of `pathlib.Path.name` on an already-normalized path string: the final
component, the part after the last slash. -/
def pathName (p : String) : String :=
  String.mk (p.data.foldl (fun acc c => if c = '/' then [] else acc ++ [c]) [])

/-- The index of the last `.` in a character list, as in `str.rfind`. -/
def lastDotIndex : List Char → Option Nat
  | [] => none
  | c :: rest =>
    match lastDotIndex rest with
    | some i => some (i + 1)
    | none => if c = '.' then some 0 else none

/-- Model of `pathlib.Path.stem`: the final component with its suffix removed; the
suffix is the part from the last dot on, provided that dot is neither the
first nor the last character of the component. -/
def pathStem (p : String) : String :=
  let nm := (pathName p).data
  match lastDotIndex nm with
  | some i => if 0 < i ∧ i < nm.length - 1 then String.mk (nm.take i) else String.mk nm
  | none => String.mk nm

/-- Python `str.startswith`, on the character lists of the strings. -/
def strStartsWith (s pre : String) : Bool :=
  pre.data.isPrefixOf s.data

/-- Python `str.endswith`, on the character lists of the strings. -/
def strEndsWith (s post : String) : Bool :=
  post.data.isSuffixOf s.data

/-- Model of `is_backup_or_hidden_file` (source lines 91-93). -/
def is_backup_or_hidden_file (path : String) : Bool :=
  let basename := pathStem path
  strEndsWith basename "~" || (strStartsWith basename "#" && strEndsWith basename "#")
    || strStartsWith basename "."

/-- Model of `drop_backup_or_hidden_files` (source lines 96-103); the warning log for
each dropped path is outside the model. -/
def drop_backup_or_hidden_files (paths : List String) : List String :=
  paths.foldl (fun result path => if is_backup_or_hidden_file path then result else result ++ [path]) []

/-- The fatal outcomes of the relationship builder: the three
`log.error` + `sys.exit(1)` exits, plus a failed `assert` and an
uncaught `KeyError`. -/
inductive FatalError where
  | unrecognizedFile : String → FatalError
  | danglingOutput : String → FatalError
  | noCasesFound : FatalError
  | assertionError : FatalError
  | keyError : FatalError
deriving DecidableEq

/-- The mapping under construction: test-case name to its
extension-to-path mapping, in insertion order. -/
abbrev Tests := List (String × List (String × String))

/-- Assignment `tests[name][ext] = path` on the `defaultdict(dict)` of the source:
a fresh name is appended at the end, a fresh extension is appended at the
end of its name's inner mapping. -/
def testsInsert (name ext path : String) (tests : Tests) : Tests :=
  alistInsert name (alistInsert ext path ((alistLookup name tests).getD [])) tests

/-- The per-path loop of `construct_relationship_of_files` (source lines
108-116): each path is matched with `match_with_format`; no match exits
with `unrecognizedFile`; the `assert ext not in tests[name]` guards the
insertion. -/
def collectTestsGo (directory format : String) : List String → Tests → Except FatalError Tests
  | [], tests => .ok tests
  | path :: rest, tests =>
    match match_with_format directory format path with
    | none => .error .keyError
    | some none => .error (.unrecognizedFile path)
    | some (some gd) =>
      match alistLookup "name" gd, alistLookup "ext" gd with
      | some name, some ext =>
        if (alistLookup ext ((alistLookup name tests).getD [])).isSome then
          .error .assertionError
        else collectTestsGo directory format rest (testsInsert name ext path tests)
      | _, _ => .error .keyError

/-- The per-path loop of `construct_relationship_of_files` started on an
empty mapping. -/
def collectTests (paths : List String) (directory format : String) : Except FatalError Tests :=
  collectTestsGo directory format paths []

/-- The validation loop of `construct_relationship_of_files` (source lines
117-121): the first name without an `in` entry exits with
`danglingOutput` on its `out` path, after the `assert` that the `out`
entry exists. -/
def danglingCheck : Tests → Except FatalError Unit
  | [] => .ok ()
  | (_, exts) :: rest =>
    if (alistLookup "in" exts).isSome then danglingCheck rest
    else
      match alistLookup "out" exts with
      | some outPath => .error (.danglingOutput outPath)
      | none => .error .assertionError

/-- The validation tail of `construct_relationship_of_files` (source lines
117-125): the dangling-output loop, then the emptiness check; the success
log of the case count is outside the model. -/
def validateTests (tests : Tests) : Except FatalError Tests :=
  match danglingCheck tests with
  | .error e => .error e
  | .ok _ => if tests.isEmpty then .error .noCasesFound else .ok tests

/-- Model of `construct_relationship_of_files` (source lines 106-126). -/
def construct_relationship_of_files (paths : List String) (directory format : String) :
    Except FatalError Tests :=
  match collectTests paths directory format with
  | .error e => .error e
  | .ok tests => validateTests tests

/-- The name and extension the builder loop reads out of a matched path:
the pair of `m.groupdict()['name']` and `m.groupdict()['ext']` when
`match_with_format` succeeds and both groups are present, `none`
otherwise. -/
def matchNameExt (directory format path : String) : Option (String × String) :=
  match match_with_format directory format path with
  | some (some gd) =>
    match alistLookup "name" gd, alistLookup "ext" gd with
    | some name, some ext => some (name, ext)
    | _, _ => none
  | _ => none

/-- The mapping described by the spec's words for the success path of the
Relationship Builder: starting from the empty mapping, for each matched
path, insert the path under `tests[name][ext]`.  The refinement theorem
for claim C1 proves the builder returns exactly this grouping whenever no
fatal condition interrupts the scan. -/
def specGrouping (directory format : String) (paths : List String) : Tests :=
  paths.foldl
    (fun ts path =>
      match matchNameExt directory format path with
      | some (name, ext) => testsInsert name ext path ts
      | none => ts) []

theorem string_data_append (a b : String) : (a ++ b).data = a.data ++ b.data := rfl

theorem alistLookup_insert_self {α β : Type} [DecidableEq α] (k : α) (v : β)
    (l : List (α × β)) : alistLookup k (alistInsert k v l) = some v := by
  induction l with
  | nil => simp [alistInsert, alistLookup]
  | cons kv rest ih =>
    by_cases h : kv.1 = k
    · simp [alistInsert, alistLookup, h]
    · simpa [alistInsert, alistLookup, h] using ih

theorem alistLookup_insert_of_ne {α β : Type} [DecidableEq α] {k k' : α} (v : β)
    (l : List (α × β)) (h : k ≠ k') :
    alistLookup k (alistInsert k' v l) = alistLookup k l := by
  have h' : ¬ k' = k := fun e => h e.symm
  induction l with
  | nil => simp [alistInsert, alistLookup, h']
  | cons kv rest ih =>
    by_cases hk : kv.1 = k'
    · simp [alistInsert, alistLookup, hk, h']
    · simp [alistInsert, alistLookup, hk, ih]

theorem percentsplitList_no_pct : ∀ cs : List Char, '%' ∉ cs →
    percentsplitList cs = cs.map (fun c => [c]) := by
  intro cs
  induction cs with
  | nil => intro _; rfl
  | cons c rest ih =>
    intro h
    have hc : ¬ c = '%' := fun hc => h (hc ▸ List.mem_cons_self c rest)
    have hrest : '%' ∉ rest := fun hr => h (List.mem_cons_of_mem c hr)
    cases rest with
    | nil => simp [percentsplitList, hc]
    | cons c2 rest2 => simp [percentsplitList, hc, ih hrest]

theorem percentsplitList_append_lone_pct : ∀ cs : List Char, '%' ∉ cs →
    percentsplitList (cs ++ ['%']) = percentsplitList cs := by
  intro cs
  induction cs with
  | nil => intro _; simp [percentsplitList]
  | cons c rest ih =>
    intro h
    have hc : ¬ c = '%' := fun hc => h (hc ▸ List.mem_cons_self c rest)
    have hrest : '%' ∉ rest := fun hr => h (List.mem_cons_of_mem c hr)
    cases rest with
    | nil => simp [percentsplitList, hc]
    | cons c2 rest2 =>
      simpa [percentsplitList, hc] using ih hrest

theorem formatTokens_map_lit : ∀ cs : List Char, '%' ∉ cs → ∀ table : Dict,
    formatTokens (cs.map (fun c => [c])) table = some cs := by
  intro cs
  induction cs with
  | nil => intro _ _; rfl
  | cons c rest ih =>
    intro h table
    have hc : ¬ c = '%' := fun hc => h (hc ▸ List.mem_cons_self c rest)
    have hrest : '%' ∉ rest := fun hr => h (List.mem_cons_of_mem c hr)
    simp [formatTokens, hc, ih hrest table]

theorem danglingCheck_ok_mem : ∀ tests : Tests, danglingCheck tests = .ok () →
    ∀ e ∈ tests, (alistLookup "in" e.2).isSome = true := by
  intro tests
  induction tests with
  | nil => intro _ e he; cases he
  | cons t rest ih =>
    obtain ⟨nm, exts⟩ := t
    intro h e he
    by_cases hin : (alistLookup "in" exts).isSome = true
    · rcases List.mem_cons.mp he with he1 | he2
      · rw [he1]; exact hin
      · refine ih ?_ e he2
        simpa [danglingCheck, hin] using h
    · exfalso
      simp only [danglingCheck, hin, if_false, Bool.false_eq_true] at h
      rcases hout : alistLookup "out" exts with _ | p <;> simp [hout] at h

theorem drop_foldl_eq : ∀ (paths acc : List String),
    paths.foldl
        (fun result path => if is_backup_or_hidden_file path then result else result ++ [path]) acc
      = acc ++ paths.filter (fun p => !is_backup_or_hidden_file p) := by
  intro paths
  induction paths with
  | nil => intro acc; simp
  | cons p rest ih =>
    intro acc
    by_cases hp : is_backup_or_hidden_file p = true
    · simp [List.foldl_cons, hp, ih, List.filter_cons]
    · simp [List.foldl_cons, hp, ih, List.filter_cons]

theorem validateTests_ok : ∀ (tests m : Tests), validateTests tests = .ok m →
    danglingCheck tests = .ok () ∧ m = tests ∧ tests ≠ [] := by
  intro tests m h
  rcases hd : danglingCheck tests with e | u
  · exfalso
    simp [validateTests, hd] at h
  · cases u
    by_cases he : tests.isEmpty = true
    · exfalso
      simp [validateTests, hd, he] at h
    · have hm : m = tests := by
        simpa [validateTests, hd, he] using h.symm
      exact ⟨rfl, hm, fun hnil => he (by simp [hnil])⟩

theorem construct_ok_facts : ∀ (paths : List String) (directory format : String) (m : Tests),
    construct_relationship_of_files paths directory format = .ok m →
    danglingCheck m = .ok () ∧ m ≠ [] := by
  intro paths directory format m h
  rcases hc : collectTests paths directory format with e | tests
  · exfalso
    simp [construct_relationship_of_files, hc] at h
  · have hv : validateTests tests = .ok m := by
      simpa [construct_relationship_of_files, hc] using h
    obtain ⟨hd, hm, hne⟩ := validateTests_ok tests m hv
    exact ⟨hm ▸ hd, hm ▸ hne⟩

theorem alistInsert_ne_nil {α β : Type} [DecidableEq α] (k : α) (v : β)
    (l : List (α × β)) : alistInsert k v l ≠ [] := by
  cases l with
  | nil => simp [alistInsert]
  | cons kv rest => by_cases h : kv.1 = k <;> simp [alistInsert, h]

theorem matchNameExt_some_iff (directory format path name ext : String) :
    matchNameExt directory format path = some (name, ext) ↔
    ∃ gd, match_with_format directory format path = some (some gd) ∧
      alistLookup "name" gd = some name ∧ alistLookup "ext" gd = some ext := by
  constructor
  · intro h
    rcases hm : match_with_format directory format path with _ | og
    · simp [matchNameExt, hm] at h
    · rcases og with _ | gd
      · simp [matchNameExt, hm] at h
      · rcases hn : alistLookup "name" gd with _ | nm
        · simp [matchNameExt, hm, hn] at h
        · rcases he : alistLookup "ext" gd with _ | ex
          · simp [matchNameExt, hm, hn, he] at h
          · simp only [matchNameExt, hm, hn, he, Option.some.injEq, Prod.mk.injEq] at h
            exact ⟨gd, rfl, h.1 ▸ hn, h.2 ▸ he⟩
  · rintro ⟨gd, hm, hn, he⟩
    simp [matchNameExt, hm, hn, he]

theorem danglingCheck_ok_of_mem : ∀ tests : Tests,
    (∀ e ∈ tests, (alistLookup "in" e.2).isSome = true) →
    danglingCheck tests = .ok () := by
  intro tests
  induction tests with
  | nil => intro _; rfl
  | cons t rest ih =>
    intro h
    have ht := h t (List.mem_cons_self t rest)
    obtain ⟨nm, exts⟩ := t
    simp only [danglingCheck, ht, if_true]
    exact ih (fun e he => h e (List.mem_cons_of_mem _ he))

theorem collectTestsGo_refines (directory format : String) :
    ∀ (paths : List String) (tests : Tests),
      (∀ p ∈ paths, (matchNameExt directory format p).isSome = true) →
      paths.Pairwise
        (fun p q => matchNameExt directory format p ≠ matchNameExt directory format q) →
      (∀ p ∈ paths, ∀ name ext, matchNameExt directory format p = some (name, ext) →
          alistLookup ext ((alistLookup name tests).getD []) = none) →
      collectTestsGo directory format paths tests
        = .ok (paths.foldl
            (fun ts path =>
              match matchNameExt directory format path with
              | some (name, ext) => testsInsert name ext path ts
              | none => ts) tests) := by
  intro paths
  induction paths with
  | nil => intro tests _ _ _; rfl
  | cons p rest ih =>
    intro tests h1 h2 h3
    have hp : (matchNameExt directory format p).isSome = true :=
      h1 p (List.mem_cons_self p rest)
    rcases hpe : matchNameExt directory format p with _ | ⟨name, ext⟩
    · rw [hpe] at hp; cases hp
    · obtain ⟨gd, hm, hn, he⟩ := (matchNameExt_some_iff directory format p name ext).mp hpe
      have hfree : alistLookup ext ((alistLookup name tests).getD []) = none :=
        h3 p (List.mem_cons_self p rest) name ext hpe
      obtain ⟨hhead, htail⟩ := List.pairwise_cons.mp h2
      have step : collectTestsGo directory format (p :: rest) tests
          = collectTestsGo directory format rest (testsInsert name ext p tests) := by
        simp [collectTestsGo, hm, hn, he, hfree]
      rw [step]
      simp only [List.foldl_cons, hpe]
      refine ih (testsInsert name ext p tests)
        (fun q hq => h1 q (List.mem_cons_of_mem _ hq)) htail ?_
      intro q hq name' ext' hq'
      by_cases hname : name' = name
      · subst hname
        have houter : alistLookup name' (testsInsert name' ext p tests)
            = some (alistInsert ext p ((alistLookup name' tests).getD [])) := by
          unfold testsInsert
          exact alistLookup_insert_self name' _ tests
        rw [houter, Option.getD_some]
        have hext : ext' ≠ ext := by
          intro hee
          subst hee
          exact (hhead q hq) (by rw [hpe, hq'])
        rw [alistLookup_insert_of_ne p _ hext]
        exact h3 q (List.mem_cons_of_mem _ hq) name' ext' hq'
      · have houter : alistLookup name' (testsInsert name ext p tests)
            = alistLookup name' tests := by
          unfold testsInsert
          exact alistLookup_insert_of_ne _ tests hname
        rw [houter]
        exact h3 q (List.mem_cons_of_mem _ hq) name' ext' hq'

theorem specGrouping_fold_ne_nil (directory format : String) :
    ∀ (paths : List String) (tests : Tests), tests ≠ [] →
      paths.foldl
          (fun ts path =>
            match matchNameExt directory format path with
            | some (name, ext) => testsInsert name ext path ts
            | none => ts) tests ≠ [] := by
  intro paths
  induction paths with
  | nil => intro tests h; simpa using h
  | cons p rest ih =>
    intro tests h
    rw [List.foldl_cons]
    apply ih
    rcases hpe : matchNameExt directory format p with _ | ⟨name, ext⟩
    · simpa [hpe] using h
    · simp only [hpe]
      unfold testsInsert
      exact alistInsert_ne_nil _ _ _

theorem specGrouping_ne_nil (directory format : String) (paths : List String)
    (hne : paths ≠ [])
    (h1 : ∀ p ∈ paths, (matchNameExt directory format p).isSome = true) :
    specGrouping directory format paths ≠ [] := by
  cases paths with
  | nil => exact absurd rfl hne
  | cons p rest =>
    have hp : (matchNameExt directory format p).isSome = true :=
      h1 p (List.mem_cons_self p rest)
    rcases hpe : matchNameExt directory format p with _ | ⟨name, ext⟩
    · rw [hpe] at hp; cases hp
    · unfold specGrouping
      rw [List.foldl_cons]
      apply specGrouping_fold_ne_nil
      simp only [hpe]
      unfold testsInsert
      exact alistInsert_ne_nil _ _ _

/-- Counterexample to claim C1: the candidate list holding only
`/dir/a.out` has every path matching the format `%s.%e`, yet
`construct_relationship_of_files` does not return the extracted
name-to-extension-to-path mapping for it; it aborts with
`DanglingOutput`, so the claim's universal quantification over all
all-matching candidate lists is false. -/
theorem claim_C1_counterexample :
    (∀ p ∈ (["/dir/a.out"] : List String),
      (matchNameExt "/dir" "%s.%e" p).isSome = true) ∧
    construct_relationship_of_files ["/dir/a.out"] "/dir" "%s.%e"
      = .error (.danglingOutput "/dir/a.out") :=
  ⟨by decide, rfl⟩

/-- Claim C1 as amended: for every nonempty candidate list whose paths all
match the format, where no two paths extract the same name-extension pair
and every extracted name receives an `in` entry,
`construct_relationship_of_files` returns exactly the mapping that sends
each extracted name to its extension-to-path map (each matched path
inserted under `tests[name][ext]`); concretely, candidates `a.in`,
`a.out`, `b.in` under `/dir` with format `%s.%e` yield the mapping of
`a` to its `in` and `out` paths and `b` to its `in` path. -/
theorem claim_C1_relationship_construction :
    (construct_relationship_of_files ["/dir/a.in", "/dir/a.out", "/dir/b.in"] "/dir" "%s.%e"
      = .ok [("a", [("in", "/dir/a.in"), ("out", "/dir/a.out")]),
             ("b", [("in", "/dir/b.in")])]) ∧
    ∀ (paths : List String) (directory format : String),
      paths ≠ [] →
      (∀ p ∈ paths, (matchNameExt directory format p).isSome = true) →
      paths.Pairwise
        (fun p q => matchNameExt directory format p ≠ matchNameExt directory format q) →
      (∀ e ∈ specGrouping directory format paths, (alistLookup "in" e.2).isSome = true) →
      construct_relationship_of_files paths directory format
        = .ok (specGrouping directory format paths) := by
  constructor
  · rfl
  · intro paths directory format hne h1 h2 h3
    have hcollect : collectTests paths directory format
        = .ok (specGrouping directory format paths) := by
      unfold collectTests specGrouping
      exact collectTestsGo_refines directory format paths [] h1 h2
        (fun _ _ _ _ _ => rfl)
    have hdangling : danglingCheck (specGrouping directory format paths) = .ok () :=
      danglingCheck_ok_of_mem _ h3
    have hnonempty : specGrouping directory format paths ≠ [] :=
      specGrouping_ne_nil directory format paths hne h1
    have hempty : (specGrouping directory format paths).isEmpty = false := by
      rcases hsp : specGrouping directory format paths with _ | ⟨t, ts⟩
      · exact absurd hsp hnonempty
      · rfl
    simp [construct_relationship_of_files, hcollect, validateTests, hdangling, hempty]

/-- Witness for the amended claim C1 at the three-file example, with every
hypothesis discharged by evaluation. -/
theorem claim_C1_witness :
    construct_relationship_of_files ["/dir/a.in", "/dir/a.out", "/dir/b.in"] "/dir" "%s.%e"
      = .ok (specGrouping "/dir" "%s.%e" ["/dir/a.in", "/dir/a.out", "/dir/b.in"]) :=
  claim_C1_relationship_construction.2 ["/dir/a.in", "/dir/a.out", "/dir/b.in"]
    "/dir" "%s.%e" (by simp) (by decide) (by decide) (by decide)

/-- Counterexample to claim C2: `percentparse "AAAB" "%a%a"` with the class
`[AB]` for `a` does not return no-match; it matches the prefix `AA`
(the class matches a single character, and the first two characters of
`AAAB` are both `A`), returning the group mapping `a` to `A`. -/
theorem claim_C2_counterexample :
    percentparse "AAAB" "%a%a" [('a', Regex.cls ['A', 'B'])] = some (some [("a", "A")]) ∧
    (some (some [("a", "A")]) : Option (Option Groups)) ≠ some none :=
  ⟨rfl, by simp⟩

/-- Claim C2 as amended: the back-reference for a repeated placeholder
requires the second occurrence to repeat the exact substring captured by
the first, so `percentparse "AB" "%a%a"` with `a` as the dot returns
no-match; but `percentparse "AAAB" "%a%a"` with `a` as the class `[AB]`
succeeds with `a` captured as `A`, since the class matches one character
and the first two characters of the input are identical. -/
theorem claim_C2_repeated_placeholder :
    percentparse "AB" "%a%a" [('a', Regex.anyc)] = some none ∧
    percentparse "AAAB" "%a%a" [('a', Regex.cls ['A', 'B'])] = some (some [("a", "A")]) :=
  ⟨rfl, rfl⟩

/-- Counterexample to claim C3: a trailing lone `%` is not a failure;
tokenization silently drops it, and `percentformat` on `a%` returns
exactly `a`, the input with the trailing `%` removed. -/
theorem claim_C3_counterexample :
    percentsplit "a%" = ["a"] ∧ percentformat "a%" [] = some ("a", [('%', "%")]) :=
  ⟨rfl, rfl⟩

/-- Claim C3 as amended: a format string with a trailing lone `%` is not a
malformed-input failure; the tokenizer silently drops the `%`, so on any
percent-free string `s` and any table, `percentformat` of `s` followed by
a lone `%` coincides with `percentformat` of `s` itself. -/
theorem claim_C3_trailing_percent_dropped (s : String) (table : Dict)
    (h : '%' ∉ s.data) :
    percentformat (s ++ "%") table = percentformat s table := by
  unfold percentformat
  rw [string_data_append]
  rw [show ("%" : String).data = ['%'] from rfl]
  rw [percentsplitList_append_lone_pct s.data h]

/-- Witness for the amended claim C3 at `s = "ab"` and the empty table. -/
theorem claim_C3_witness :
    percentformat ("ab" ++ "%") [] = percentformat "ab" [] :=
  claim_C3_trailing_percent_dropped "ab" [] (by decide)

/-- Counterexample to claim C4: `percentformat` does not leave the caller's
table unchanged; called with the empty table it returns having inserted
the entry mapping `%` to `%`, so the table after the call differs from
the table before it. -/
theorem claim_C4_counterexample :
    percentformat "x" [] = some ("x", [('%', "%")]) ∧ ([('%', "%")] : Dict) ≠ [] :=
  ⟨rfl, by simp⟩

/-- Claim C4 as amended: a successful `percentformat` call leaves every
entry of the caller's table other than `%` exactly as it was, and leaves
the `%` key mapped to `%` (inserting that entry when it was absent; the
assertion had already forced a pre-existing `%` entry to equal `%`). -/
theorem claim_C4_table_mutation (s : String) (table : Dict) (out : String × Dict)
    (h : percentformat s table = some out) :
    alistLookup '%' out.2 = some "%" ∧
    ∀ c : Char, c ≠ '%' → alistLookup c out.2 = alistLookup c table := by
  unfold percentformat at h
  by_cases ha : tableAssertOK table = true
  · rw [if_pos ha] at h
    rcases hf : formatTokens (percentsplitList s.data) (alistInsert '%' "%" table) with _ | cs
    · rw [hf] at h; cases h
    · rw [hf] at h
      have hout : out.2 = alistInsert '%' "%" table := by
        cases h; rfl
      rw [hout]
      exact ⟨alistLookup_insert_self '%' "%" table,
        fun c hc => alistLookup_insert_of_ne "%" table hc⟩
  · rw [if_neg ha] at h; cases h

/-- Witness for the amended claim C4 at `s = "x"` and the empty table. -/
theorem claim_C4_witness :
    alistLookup '%' [('%', "%")] = some "%" ∧
    alistLookup 'a' [('%', "%")] = alistLookup 'a' ([] : Dict) :=
  ⟨(claim_C4_table_mutation "x" [] ("x", [('%', "%")]) rfl).1,
   (claim_C4_table_mutation "x" [] ("x", [('%', "%")]) rfl).2 'a' (by decide)⟩

/-- Claim C5: with the single candidate `a.out` and format `%s.%e` the
builder fails with `DanglingOutput` on the path of `a.out`; and in
general a successfully returned mapping never contains a name without an
`in` entry (a dangling name aborts the scan, so no partial mapping is
returned). -/
theorem claim_C5_dangling_output :
    construct_relationship_of_files ["/dir/a.out"] "/dir" "%s.%e"
        = .error (.danglingOutput "/dir/a.out") ∧
    ∀ (paths : List String) (directory format : String) (m : Tests),
      construct_relationship_of_files paths directory format = .ok m →
      ∀ e ∈ m, (alistLookup "in" e.2).isSome = true := by
  constructor
  · rfl
  · intro paths directory format m h e he
    obtain ⟨hd, _⟩ := construct_ok_facts paths directory format m h
    exact danglingCheck_ok_mem m hd e he

/-- Witness for the general part of claim C5, instantiated at the
successful three-file scan of claim C1's example. -/
theorem claim_C5_witness :
    (alistLookup "in" [("in", "/dir/a.in"), ("out", "/dir/a.out")]).isSome = true :=
  claim_C5_dangling_output.2 ["/dir/a.in", "/dir/a.out", "/dir/b.in"] "/dir" "%s.%e"
    [("a", [("in", "/dir/a.in"), ("out", "/dir/a.out")]), ("b", [("in", "/dir/b.in")])] rfl
    ("a", [("in", "/dir/a.in"), ("out", "/dir/a.out")]) (by simp)

/-- Claim C6: on the empty candidate list the builder fails with
`NoCasesFound`, and in general it never returns an empty mapping. -/
theorem claim_C6_no_empty_result :
    (∀ directory format : String,
      construct_relationship_of_files [] directory format = .error .noCasesFound) ∧
    ∀ (paths : List String) (directory format : String) (m : Tests),
      construct_relationship_of_files paths directory format = .ok m → m ≠ [] := by
  constructor
  · intro directory format; rfl
  · intro paths directory format m h
    exact (construct_ok_facts paths directory format m h).2

/-- Witness for the general part of claim C6, instantiated at the
successful three-file scan of claim C1's example. -/
theorem claim_C6_witness :
    ([("a", [("in", "/dir/a.in"), ("out", "/dir/a.out")]), ("b", [("in", "/dir/b.in")])]
        : Tests) ≠ [] :=
  claim_C6_no_empty_result.2 ["/dir/a.in", "/dir/a.out", "/dir/b.in"] "/dir" "%s.%e"
    [("a", [("in", "/dir/a.in"), ("out", "/dir/a.out")]), ("b", [("in", "/dir/b.in")])] rfl

/-- Claim C7: `percentformat` replaces each placeholder token by its table
value and passes literals through: on `foo %a%a bar %b` with `a` mapped
to `AA` and `b` to `12345` it produces `foo AAAA bar 12345` (the table
is returned with the `%` entry the call inserts). -/
theorem claim_C7_percentformat_example :
    percentformat "foo %a%a bar %b" [('a', "AA"), ('b', "12345")]
      = some ("foo AAAA bar 12345", [('a', "AA"), ('b', "12345"), ('%', "%")]) := rfl

/-- Claim C8: round-trip identity — on a format string without any `%`
character, and any table satisfying the data-model invariant that a `%`
entry, if present, equals `%`, `percentformat` returns the string
unchanged (together with the table left by the call). -/
theorem claim_C8_literal_roundtrip (s : String) (table : Dict)
    (hs : '%' ∉ s.data)
    (ht : alistLookup '%' table = none ∨ alistLookup '%' table = some "%") :
    percentformat s table = some (s, alistInsert '%' "%" table) := by
  have ha : tableAssertOK table = true := by
    unfold tableAssertOK
    rcases ht with ht | ht <;> simp [ht]
  unfold percentformat
  rw [if_pos ha, percentsplitList_no_pct s.data hs,
    formatTokens_map_lit s.data hs (alistInsert '%' "%" table)]

/-- Witness for claim C8 at `s = "abc"` and a table with an unrelated
entry. -/
theorem claim_C8_witness :
    percentformat "abc" [('x', "y")] = some ("abc", [('x', "y"), ('%', "%")]) :=
  claim_C8_literal_roundtrip "abc" [('x', "y")] (by decide) (Or.inl rfl)

/-- Claim C9: `is_backup_or_hidden_file` holds exactly for paths whose
stem ends with a tilde, or starts and ends with a hash, or starts with a
dot — in particular for `foo~`, `.hidden` and `#buffer#` but not
`normal.txt` — and `drop_backup_or_hidden_files` always returns the
non-backup non-hidden subsequence (it is total: it never fails). -/
theorem claim_C9_backup_hidden_filter :
    is_backup_or_hidden_file "foo~" = true ∧
    is_backup_or_hidden_file ".hidden" = true ∧
    is_backup_or_hidden_file "#buffer#" = true ∧
    is_backup_or_hidden_file "normal.txt" = false ∧
    ∀ paths : List String,
      drop_backup_or_hidden_files paths
        = paths.filter (fun p => !is_backup_or_hidden_file p) := by
  refine ⟨rfl, rfl, rfl, rfl, fun paths => ?_⟩
  simpa [drop_backup_or_hidden_files] using drop_foldl_eq paths []

/-- Claim C10: `percentparse` is anchored at the start of the input only:
on `foo AAAA bar 12345 EXTRA` with format `foo %a%a bar %b` the match
succeeds, returning `a` mapped to `AA` and `b` to `12345`, while the
trailing ` EXTRA` is left unconsumed by the underlying match. -/
theorem claim_C10_prefix_anchoring :
    percentparse "foo AAAA bar 12345 EXTRA" "foo %a%a bar %b"
        [('a', strLits "AA"), ('b', strLits "12345")]
      = some (some [("a", "AA"), ("b", "12345")]) ∧
    percentparseRemainder "foo AAAA bar 12345 EXTRA" "foo %a%a bar %b"
        [('a', strLits "AA"), ('b', strLits "12345")]
      = some (some (" EXTRA" : String).data) :=
  ⟨rfl, rfl⟩
